import Mathlib

/-!
Shallow embedding of the core of `src/client.py` (Decentralized-Messenger).

Modelling conventions:
* Python `bytes` and `str` values are both modelled as `List Nat` (byte values);
  `str.encode()` / `bytes.decode()` become the identity.  All strings the
  protocol manipulates (numeric-id nicknames, `host:port` addresses, payload
  text) are byte strings on the wire, so this identification is faithful for
  the properties considered here.
* Python functions that can raise become `Option`-valued: `none` is a raised
  exception at the corresponding program point.
* `struct.pack("<BHH", ...)` rejects a command outside `0..255` and a length
  outside `0..65535` with `struct.error`; the model returns `none` there.
* Python's builtin `hash` (process-seeded string hash) is an uninterpreted
  parameter `hsh : List Nat → Int`; `x % 10**9` on a Python int is Euclidean
  remainder for a positive modulus, i.e. Lean's `Int.emod`, always nonnegative.
-/

namespace DecMess

/-- Whitespace stripped by Python's `str.strip()`, restricted to the
single-byte range where the str and byte views coincide: tab, newline,
vertical tab, form feed, carriage return (9-13), the file/group/record/unit
separators `\x1c`-`\x1f` (28-31, which `str.strip` removes, unlike
`bytes.strip`), and space (32).  The remaining Unicode whitespace
codepoints (U+0085, U+00A0, ...) are multi-byte in UTF-8 and lie outside
the byte-string identification used by this model. -/
def isSpace (b : Nat) : Bool :=
  b == 32 || b == 9 || b == 10 || b == 11 || b == 12 || b == 13 ||
  b == 28 || b == 29 || b == 30 || b == 31

/-- Left part of `str.strip()`: drop leading whitespace. -/
def lstrip (l : List Nat) : List Nat := l.dropWhile isSpace

/-- Model of Python `str.strip()`: drop leading and trailing whitespace. -/
def strip (l : List Nat) : List Nat :=
  ((lstrip l).reverse.dropWhile isSpace).reverse

/-- Decimal digit characters of a natural number (ASCII codes), the model of
Python `str(n)` for a nonnegative int.  Structural recursion on fuel so that
the kernel can evaluate it; `natDigitsAux (n+1) n` always has enough fuel. -/
def natDigitsAux : Nat → Nat → List Nat
  | 0, _ => []
  | fuel + 1, n =>
    if n < 10 then [48 + n]
    else natDigitsAux fuel (n / 10) ++ [48 + n % 10]

/-- Model of Python `str(n)` for a natural number. -/
def natDigits (n : Nat) : List Nat := natDigitsAux (n + 1) n

/-- Python `x % 10**9` for an int `x` (Euclidean remainder, nonnegative). -/
def pyMod (i : Int) : Nat := (i % 1000000000).toNat

/-- One round of the reflected CRC-32 bit loop used by `zlib.crc32`
(polynomial 0xEDB88320). -/
def crcRound (c : Nat) : Nat :=
  if c % 2 = 1 then Nat.xor (c / 2) 3988292384 else c / 2

/-- Fold one byte into the CRC accumulator (eight bit rounds). -/
def crcByte (c b : Nat) : Nat :=
  crcRound (crcRound (crcRound (crcRound
    (crcRound (crcRound (crcRound (crcRound (Nat.xor c b))))))))

/-- Model of `zlib.crc32(data)`: the message fingerprint used for dedup. -/
def crc32 (data : List Nat) : Nat :=
  Nat.xor (data.foldl crcByte 4294967295) 4294967295

/-- Byte layout produced by `struct.pack("<BHH{n}s{m}s", ...)` in
`ChatClient.pack_message` (client.py lines 267-277): command byte, total
length as little-endian u16, nickname length as little-endian u16, nickname
bytes, message bytes. -/
def packBytes (c : Nat) (nick m : List Nat) : List Nat :=
  c ::
  (nick.length + m.length) % 256 ::
  (nick.length + m.length) / 256 % 256 ::
  nick.length % 256 ::
  nick.length / 256 % 256 ::
  (nick ++ m)

/-- Model of `ChatClient.pack_message` (client.py lines 267-277).  The message
is stripped first (`message = message.strip()`); `struct.pack` raises
`struct.error` (modelled as `none`) if the command does not fit in a byte or
the combined length does not fit in a u16. -/
def pack_message (c : Nat) (nick msg : List Nat) : Option (List Nat) :=
  let m := strip msg
  if c ≤ 255 ∧ nick.length + m.length ≤ 65535 then
    some (packBytes c nick m)
  else none

/-- Model of `ChatClient.unpack_message` (client.py lines 280-300).  The
Python function catches every exception and returns `None` (modelled as
`none`): short header, unknown command (`Command(int(command))` raises for a
value outside 0..4), short body, and a negative second field width in the
body format (when `nickname_length > data_length`). -/
def unpack_message (data : List Nat) : Option (Nat × List Nat × List Nat) :=
  match data with
  | c :: a :: b :: d :: e :: rest =>
    if c < 5 then
      let dl := a + 256 * b
      let nl := d + 256 * e
      if rest.length < dl then none
      else if dl < nl then none
      else
        let buf := rest.take dl
        some (c, buf.take nl, buf.drop nl)
    else none
  | _ => none

/-- Model of a `UserConnection` (client.py lines 64-72): host string, port,
and whether the writer half of the link is present (non-None). -/
structure Conn where
  host : List Nat
  port : Nat
  writer : Bool
deriving DecidableEq

/-- Model of `str(UserConnection)`, i.e. the f-string "{host}:{port}"
(client.py line 72). -/
def connStr (c : Conn) : List Nat := c.host ++ 58 :: natDigits c.port

/-- Model of `str(x)` where `x` is a node field that may be `None`
(Python then yields the four characters of "None"). -/
def strOfNode : Option Conn → List Nat
  | some c => connStr c
  | none => [78, 111, 110, 101]

/-- Model of `ChatClient.send_message` (client.py lines 262-265): writes the
bytes when the writer is present and silently does nothing otherwise; it
never raises.  The returned list is the data actually written. -/
def send_message (writerPresent : Bool) (data : List Nat) : List (List Nat) :=
  if writerPresent then [data] else []

/-- Dedup-relevant mutable state of a `ChatClient`: the `passed_messages`
set (modelled as a duplicate-free list), the bounded FIFO `history`
(`queue.Queue(maxsize=64)`, list front = oldest entry), and the `nickname`
field (mutated by the `GIVE_ID` handler). -/
structure NodeSt where
  passed : List Nat
  history : List Nat
  nickname : List Nat
deriving DecidableEq

/-- Python `set.add`: a no-op when the element is already present. -/
def setAdd (s : List Nat) (h : Nat) : List Nat :=
  if s.contains h then s else s ++ [h]

/-- Eviction of the oldest history entry (client.py lines 215-217, 251-253):
`deleted_item = self.history.get()` followed by
`self.passed_messages.remove(deleted_item)`.  Python's `set.remove` raises
`KeyError` when the element is absent; the model uses `List.erase`, which
agrees whenever the element is present (every eviction performed in the
theorems below removes a present element). -/
def evict (st : NodeSt) : NodeSt :=
  match st.history with
  | [] => st
  | d :: t => { st with passed := st.passed.erase d, history := t }

/-- Recording a fingerprint (client.py lines 215-219 and 251-255): evict the
oldest entry when the queue is full (`maxsize = 64`, `full()` is
`qsize >= maxsize`), then add the fingerprint to both the set and the
queue. -/
def record (st : NodeSt) (h : Nat) : NodeSt :=
  let st1 := if 64 ≤ st.history.length then evict st else st
  { st1 with passed := setAdd st1.passed h, history := st1.history ++ [h] }

/-- Receive-side treatment of a fingerprint in `process_stream` (client.py
lines 199-201 with 215-219): an already-seen fingerprint is dropped, a fresh
one is recorded. -/
def recvStep (st : NodeSt) (h : Nat) : NodeSt :=
  if st.passed.contains h then st else record st h

/-- One fingerprint-recording event at a node: `recv h` is the receive path
of `process_stream` (dedup check, then record), `send h` is the local-send
path of `process_input` (client.py lines 248-255), which records the
fingerprint of the freshly packed frame without any membership check. -/
inductive DedupOp where
  | recv (h : Nat)
  | send (h : Nat)
deriving DecidableEq

/-- Application of one recording event to the node state. -/
def applyOp (st : NodeSt) (op : DedupOp) : NodeSt :=
  match op with
  | .recv h => recvStep st h
  | .send h => record st h

/-- Guard for the amended C4 invariant: along the sequence, the local-send
path never records a fingerprint that is still in `passed_messages`. -/
def safeOps : NodeSt → List DedupOp → Bool
  | _, [] => true
  | st, op :: rest =>
    (match op with
     | .recv _ => true
     | .send h => !(st.passed.contains h)) && safeOps (applyOp st op) rest

/-- Destination of a frame written during one `process_stream` iteration. -/
inductive Target where
  | toOpp
  | toLeft
  | toNewNode
deriving DecidableEq

/-- Immutable surroundings of one `process_stream` iteration. -/
structure Ctx where
  oppWriter : Bool
  leftWriter : Bool
  rightPresent : Bool
  netOk : Bool
  me : Conn
  newNode : Option Conn
  pyHash : List Nat → Int

/-- Observable outcome of one `process_stream` iteration. -/
structure Outcome where
  dropped : Bool
  handlerRun : Bool
  inlineSplice : Bool
  rawForwards : Nat
  sent : List (Target × List Nat)
  errored : Bool
  skipped : Bool
deriving DecidableEq

/-- Body length announced by a frame's header: the little-endian `totalLen`
field in bytes 1-2, the number of body bytes `process_stream` reads at
line 195.  `none` for a frame shorter than three bytes, which the read loop
can never produce (the header is always five bytes). -/
def bodyLen (raw : List Nat) : Option Nat :=
  match raw with
  | _ :: b1 :: b2 :: _ => some (b1 + 256 * b2)
  | _ => none

/-- Accumulate a decimal value; `none` on the first non-digit byte. -/
def decDigitsAux : List Nat → Nat → Option Nat
  | [], acc => some acc
  | b :: rest, acc =>
    if 48 ≤ b ∧ b ≤ 57 then decDigitsAux rest (acc * 10 + (b - 48)) else none

/-- Nonempty all-digit byte string to its value. -/
def decNat? (l : List Nat) : Option Nat :=
  match l with
  | [] => none
  | _ => decDigitsAux l 0

/-- Model of Python `int(s)` on the byte strings this protocol produces:
surrounding whitespace, an optional sign, then at least one decimal digit.
(CPython's underscore digit separators are not modelled; no protocol value
contains one.) -/
def pyInt? (s : List Nat) : Option Int :=
  match strip s with
  | 43 :: rest => (decNat? rest).map (fun n => (n : Int))
  | 45 :: rest => (decNat? rest).map (fun n => -(n : Int))
  | l => (decNat? l).map (fun n => (n : Int))

/-- Parse `host, port = l.split(":")` followed by `int(port)` (exactly two
parts, as in client.py lines 323 and 336); `none` is the ValueError path.
A negative port is folded into the failure case: the subsequent dial can
never succeed on one. -/
def parsePair2 (l : List Nat) : Option (List Nat × Nat) :=
  match l.splitOn 58 with
  | [h, p] => (pyInt? p).bind (fun i => if i < 0 then none else some (h, i.toNat))
  | _ => none

/-- Parse `l.split(":")[0]` and `int(l.split(":")[1])` (at least two parts,
as in client.py lines 330 and 333); `none` is the IndexError or ValueError
path. -/
def parseIdx2 (l : List Nat) : Option (List Nat × Nat) :=
  match l.splitOn 58 with
  | h :: p :: _ => (pyInt? p).bind (fun i => if i < 0 then none else some (h, i.toNat))
  | _ => none

/-- Model of `ChatClient.handle_new_connection` (client.py lines 321-339) as
invoked by command dispatch.  Returns the frames it writes; `none` is a
raised exception (parse failure, failed dial — `ctx.netOk` false — or
`struct.error` while packing).  The reassignments of `left_node`,
`right_node` and `awaited_connection` performed by this handler do not feed
back into the dedup state within one `process_stream` iteration and are not
tracked here. -/
def handleNewConn (ctx : Ctx) (st : NodeSt) (msg : List Nat) :
    Option (List (Target × List Nat)) :=
  if !ctx.rightPresent then
    match parsePair2 (msg.drop 1) with
    | none => none
    | some _ => if ctx.netOk then some [] else none
  else if msg.head? == some 50 then
    match msg.get? 1 with
    | some 108 => (parseIdx2 (msg.drop 2)).map (fun _ => [])
    | some _ =>
      match parseIdx2 (msg.drop 2) with
      | none => none
      | some _ => if ctx.netOk then some [] else none
    | none => none
  else
    match parsePair2 (msg.drop 1) with
    | none => none
    | some _ =>
      match pack_message 4 st.nickname (49 :: connStr ctx.me) with
      | none => none
      | some d => some (if ctx.leftWriter then [(Target.toLeft, d)] else [])

/-- Model of one `command_handlers` dispatch (client.py line 214 with the
handlers at lines 303-339).  Only `GIVE_ID` mutates the modelled state
(`self.nickname = message`); `none` is the handler raising (for
`PRINT_MESSAGE`, `int(nickname)` inside `number_to_rgb` raising
`ValueError`). -/
def dispatch (ctx : Ctx) (st : NodeSt) (cmd : Nat) (nick msg : List Nat) :
    Option (NodeSt × List (Target × List Nat)) :=
  if cmd = 0 then (pyInt? nick).map (fun _ => (st, []))
  else if cmd = 1 then some (st, [])
  else if cmd = 2 then some (st, [])
  else if cmd = 3 then some ({ st with nickname := msg }, [])
  else (handleNewConn ctx st msg).map (fun s => (st, s))

/-- Outcome of an exception escaping the iteration: nothing dispatched,
nothing forwarded, nothing recorded by the escaping path itself. -/
def errOutcome : Outcome := ⟨false, false, false, 0, [], true, false⟩

/-- Silent-drop outcome for a duplicate fingerprint (client.py lines
200-201). -/
def dropOutcome : Outcome := ⟨true, false, false, 0, [], false, false⟩

/-- Silent-skip outcome for a frame whose body is empty: `readexactly(0)`
returns an empty byte string and `if not body_data: break` (client.py lines
196-197) leaves the loop before the fingerprint is even computed — no dedup
check, no record, no dispatch, no forward, no exception. -/
def skipOutcome : Outcome := ⟨false, false, false, 0, [], false, true⟩

/-- Model of one iteration of `ChatClient.process_stream` (client.py lines
188-227) on one complete raw frame: the silent skip of a frame whose body is
empty (`if not body_data: break`, lines 195-197, reached when the header's
`totalLen` field is zero, before the fingerprint is computed — the `if not
header` check at lines 192-193 can never fire since the header read returns
exactly five bytes), the dedup check on the CRC-32 fingerprint of the raw
bytes, unpack, the inline NEW_CONNECTION "1" splice branch (lines 203-213,
which records, relays the raw bytes to `new_node`, and sends it a GIVE_ID
frame — all without any `command_handlers` call), dispatch followed by
recording (lines 214-219), the "0" relay to the left writer (lines
220-222), and the forward of the unmodified raw bytes to the opposite writer
(lines 224-225).  Exceptions escaping the iteration (`TypeError` after
`unpack_message` returns `None`, `IndexError` on `message[0]`, handler
exceptions, `AttributeError` on `self.new_node.writer` when `new_node` is
`None`) are the `errored` outcomes; `process_node` (lines 161-168) catches
them, ending one inner read loop, and the `while True` of
`receive_messages` (lines 159-184) starts a fresh one, so the relay loop
carries on with the following frames (the `break` of the skip path re-enters
the same way). -/
def step (ctx : Ctx) (st : NodeSt) (raw : List Nat) : NodeSt × Outcome :=
  if bodyLen raw = some 0 then (st, skipOutcome)
  else
    let h := crc32 raw
    if st.passed.contains h then (st, dropOutcome)
    else
      match unpack_message raw with
      | none => (st, errOutcome)
      | some (cmd, nick, msg) =>
        if cmd = 4 then
          match msg.head? with
          | none => (st, errOutcome)
          | some c0 =>
            if c0 = 49 then
              let st1 := record st h
              match ctx.newNode with
              | none => (st1, errOutcome)
              | some nn =>
                let fw : Nat := if nn.writer then 1 else 0
                match pack_message 3 st1.nickname
                    (natDigits (pyMod (ctx.pyHash (connStr nn)))) with
                | none => (st1, ⟨false, false, true, fw, [], true, false⟩)
                | some giveId =>
                  (st1, ⟨false, false, true, fw,
                    (if nn.writer then [(Target.toNewNode, giveId)] else []),
                    false, false⟩)
            else
              match dispatch ctx st cmd nick msg with
              | none => (st, errOutcome)
              | some (st2, sends) =>
                let st3 := record st2 h
                if c0 = 48 then
                  (st3, ⟨false, true, false, (if ctx.leftWriter then 1 else 0),
                         sends, false, false⟩)
                else
                  (st3, ⟨false, true, false, 0, sends, false, false⟩)
        else
          match dispatch ctx st cmd nick msg with
          | none => (st, errOutcome)
          | some (st2, sends) =>
            (record st2 h,
             ⟨false, true, false, (if ctx.oppWriter then 1 else 0), sends,
              false, false⟩)

/-- Sequential processing of a stream of complete frames through
`process_stream`; an errored frame ends one inner `process_node` loop and
`receive_messages` immediately starts a fresh one, so processing continues
with the next frame. -/
def processFrames (ctx : Ctx) : NodeSt → List (List Nat) → NodeSt × List Outcome
  | st, [] => (st, [])
  | st, f :: fs =>
    let p := step ctx st f
    let q := processFrames ctx p.1 fs
    (q.1, p.2 :: q.2)

/-- Model of the timeout handler in `process_node` (client.py lines 165-166):
`except asyncio.TimeoutError: pass` — the link is left exactly as it was;
nothing is closed and no writer is discarded. -/
def handleTimeout (link : Conn) : Conn := link

/-- Destination of a frame written by the disconnect branch. -/
inductive DTarget where
  | dLeft
  | dRight
deriving DecidableEq

/-- Model of the `!disconnect` branch of `ChatClient.process_input`
(client.py lines 233-241) together with the shutdown it triggers: pack the
departure notice and the two repoint frames ("2r" + `str(right_node)` and
"2l" + `str(left_node)`), write the notice to both writers, the "2r" frame
to the left writer and the "2l" frame to the right writer (each write
skipped when the writer is absent), then raise; the exception lands in the
`finally` of `start_connection` (lines 148-156), which closes both links and
exits the process — the returned `true` flag is that termination.
Accessing `self.right_node.writer` with `right_node = None` raises first,
modelled as `none`. -/
def disconnectStep (nickname : List Nat) (leftNode : Conn)
    (rightNode : Option Conn) : Option (List (DTarget × List Nat) × Bool) :=
  match pack_message 1 nickname nickname with
  | none => none
  | some d =>
    match pack_message 4 nickname (50 :: 114 :: strOfNode rightNode) with
    | none => none
    | some rightData =>
      match pack_message 4 nickname (50 :: 108 :: connStr leftNode) with
      | none => none
      | some leftData =>
        match rightNode with
        | none => none
        | some r =>
          some ((if leftNode.writer then [(DTarget.dLeft, d)] else []) ++
                (if r.writer then [(DTarget.dRight, d)] else []) ++
                (if leftNode.writer then [(DTarget.dLeft, rightData)] else []) ++
                (if r.writer then [(DTarget.dRight, leftData)] else []), true)

/-- Model of the SOLO bootstrap id derivation (client.py line 99):
`self.nickname = str(hash(str(self.me)) % 10**9)`, with Python's builtin
string hash as the uninterpreted parameter `hsh`. -/
def soloNickname (hsh : List Nat → Int) (me : Conn) : List Nat :=
  natDigits (pyMod (hsh (connStr me)))

/-- Destination of a frame written by the accept callback. -/
inductive HCTarget where
  | toCandidate
  | toRightNode
deriving DecidableEq

/-- Observable result of `handle_connection`: frames written and the
link-field mutations performed. -/
structure HCRes where
  sent : List (HCTarget × List Nat)
  rightSet : Bool
  leftSet : Bool
  awaitedAdded : Option (List Nat)
  awaitedRemoved : Option (List Nat)
  newNodeSet : Bool
deriving DecidableEq

/-- Model of `ChatClient.handle_connection` (client.py lines 355-375), the
accept callback.  In a solo ring (`str(self.right_node) == str(self.me)`)
the node itself terminates the splice: it sends the candidate the
NEW_CONNECTION "1" frame and a GIVE_ID frame whose payload is
`str(hash(str(candidate)) % 10**9)`, records the candidate's host in
`awaited_connection`, and installs the candidate as its right node.
Otherwise an unsolicited connection is stored in `new_node` and announced to
the right neighbor with a "0" frame, while an awaited host is installed as
the left node and removed from the awaited set.  The surrounding
`try/except` swallows exceptions, modelled as `none`. -/
def handleConnection (hsh : List Nat → Int) (me : Conn) (nickname : List Nat)
    (rightNode : Option Conn) (awaited : List (List Nat)) (peer : Conn) :
    Option HCRes :=
  if strOfNode rightNode == connStr me then
    match pack_message 4 nickname (49 :: connStr me) with
    | none => none
    | some d1 =>
      match pack_message 3 nickname (natDigits (pyMod (hsh (connStr peer)))) with
      | none => none
      | some d2 =>
        some ⟨(if peer.writer then [(HCTarget.toCandidate, d1)] else []) ++
              (if peer.writer then [(HCTarget.toCandidate, d2)] else []),
              true, false, some peer.host, none, false⟩
  else if !(awaited.contains peer.host) then
    match pack_message 4 nickname (48 :: connStr peer) with
    | none => none
    | some d =>
      match rightNode with
      | none => none
      | some r =>
        some ⟨(if r.writer then [(HCTarget.toRightNode, d)] else []),
              false, false, none, none, true⟩
  else
    some ⟨[], false, true, none, some peer.host, false⟩

/-! ## Lemmas about `strip` -/

lemma dropWhile_idem (p : Nat → Bool) (l : List Nat) :
    (l.dropWhile p).dropWhile p = l.dropWhile p := by
  rw [List.dropWhile_eq_self_iff]
  intro hl
  exact List.dropWhile_get_zero_not p l hl

lemma dropWhile_eq_self_of_head (p : Nat → Bool) (l : List Nat)
    (h : ∀ x, l.head? = some x → p x = false) : l.dropWhile p = l := by
  cases l with
  | nil => rfl
  | cons a t => simp [List.dropWhile_cons, h a rfl]

lemma dropWhile_prefix_of_dropWhile (p : Nat → Bool) (A m : List Nat)
    (hA : A.dropWhile p = A) (hpre : m <+: A) : m.dropWhile p = m := by
  cases m with
  | nil => rfl
  | cons x t =>
    obtain ⟨r, hr⟩ := hpre
    subst hr
    have hx : p x = false := by
      by_contra hpx
      have hpx1 : p x = true := by revert hpx; cases p x <;> simp
      rw [List.cons_append, List.dropWhile_cons, if_pos hpx1] at hA
      have hlen := (@List.dropWhile_suffix _ (t ++ r) p).length_le
      rw [hA] at hlen
      simp at hlen
    simp [List.dropWhile_cons, hx]

lemma strip_strip (l : List Nat) : strip (strip l) = strip l := by
  have hAd : (l.dropWhile isSpace).dropWhile isSpace = l.dropWhile isSpace :=
    dropWhile_idem isSpace l
  have hBd : ((l.dropWhile isSpace).reverse.dropWhile isSpace).dropWhile isSpace
      = (l.dropWhile isSpace).reverse.dropWhile isSpace :=
    dropWhile_idem isSpace _
  have hpre : ((l.dropWhile isSpace).reverse.dropWhile isSpace).reverse
      <+: l.dropWhile isSpace := by
    have h1 : (l.dropWhile isSpace).reverse.dropWhile isSpace
        <:+ (l.dropWhile isSpace).reverse := List.dropWhile_suffix _
    have h2 := List.reverse_prefix.mpr h1
    rwa [List.reverse_reverse] at h2
  have h1 : (((l.dropWhile isSpace).reverse.dropWhile isSpace).reverse).dropWhile
      isSpace = ((l.dropWhile isSpace).reverse.dropWhile isSpace).reverse :=
    dropWhile_prefix_of_dropWhile isSpace _ _ hAd hpre
  show ((((((l.dropWhile isSpace).reverse.dropWhile isSpace).reverse).dropWhile
      isSpace).reverse).dropWhile isSpace).reverse
      = ((l.dropWhile isSpace).reverse.dropWhile isSpace).reverse
  rw [h1, List.reverse_reverse, hBd]

lemma strip_eq_self_of_ends (l : List Nat)
    (h1 : ∀ x, l.head? = some x → isSpace x = false)
    (h2 : ∀ x, l.getLast? = some x → isSpace x = false) :
    strip l = l := by
  unfold strip lstrip
  rw [dropWhile_eq_self_of_head isSpace l h1]
  rw [dropWhile_eq_self_of_head isSpace l.reverse
    (by intro x hx; exact h2 x (by rwa [List.head?_reverse] at hx))]
  exact List.reverse_reverse l

lemma strip_replicate (n a : Nat) (ha : isSpace a = false) :
    strip (List.replicate n a) = List.replicate n a := by
  apply strip_eq_self_of_ends
  · intro x hx
    rw [List.head?_replicate] at hx
    by_cases hn : n = 0
    · simp [hn] at hx
    · simp [hn] at hx; subst hx; exact ha
  · intro x hx
    rw [← List.head?_reverse, List.reverse_replicate, List.head?_replicate] at hx
    by_cases hn : n = 0
    · simp [hn] at hx
    · simp [hn] at hx; subst hx; exact ha

lemma dropWhile_replicate_append (p : Nat → Bool) (n a : Nat) (l : List Nat)
    (ha : p a = true) :
    (List.replicate n a ++ l).dropWhile p = l.dropWhile p := by
  induction n with
  | zero => simp
  | succ m ih => rw [List.replicate_succ]; simp [List.dropWhile_cons, ha, ih]

lemma strip_spaces97 : strip (List.replicate 65536 32 ++ [97]) = [97] := by
  unfold strip lstrip
  rw [dropWhile_replicate_append isSpace 65536 32 [97] (by decide)]
  decide

/-! ## Codec lemmas -/

lemma pack_eq_some (c : Nat) (nick m : List Nat) (hc : c ≤ 255)
    (hm : strip m = m) (hl : nick.length + m.length ≤ 65535) :
    pack_message c nick m = some (packBytes c nick m) := by
  simp only [pack_message, hm]
  rw [if_pos ⟨hc, hl⟩]

lemma unpack_packBytes (c : Nat) (nick m : List Nat) (hc : c < 5)
    (hl : nick.length + m.length ≤ 65535) :
    unpack_message (packBytes c nick m) = some (c, nick, m) := by
  have hn : nick.length ≤ 65535 := by omega
  have hdl : (nick.length + m.length) % 256
      + 256 * ((nick.length + m.length) / 256 % 256) = nick.length + m.length := by
    omega
  have hnl : nick.length % 256 + 256 * (nick.length / 256 % 256) = nick.length := by
    omega
  simp only [packBytes, unpack_message, hdl, hnl]
  rw [if_pos hc]
  rw [if_neg (by rw [List.length_append]; omega)]
  rw [if_neg (by omega)]
  rw [List.take_of_length_le (le_of_eq (List.length_append nick m))]
  rw [List.take_left, List.drop_left]

/-! ## Claim C1 -/

/-- C1 counterexample: the payload " a" (one leading space then "a") together
with the empty senderId has combined length 2 ≤ 65535, so the claim as stated
applies to it; but `pack_message` strips the payload before framing, and
decoding the produced frame yields payload "a", not the original " a". -/
theorem c1_counterexample :
    pack_message 0 [] [32, 97] = some [0, 1, 0, 0, 0, 97] ∧
    unpack_message [0, 1, 0, 0, 0, 97] = some (0, [], [97]) ∧
    some ((0 : Nat), ([] : List Nat), [97]) ≠ some ((0 : Nat), ([] : List Nat), [32, 97]) := by
  refine ⟨by decide, by decide, by decide⟩

/-- C1 (amended): for every command among the five protocol ids (0..4), every
senderId, and every payload that carries no leading or trailing whitespace,
with combined length at most 65535, decoding the bytes produced by
`pack_message` with `unpack_message` reproduces the command, the senderId and
the payload exactly. -/
theorem c1_roundtrip (c : Nat) (nick msg : List Nat) (hc : c < 5)
    (hm : strip msg = msg) (hl : nick.length + msg.length ≤ 65535) :
    pack_message c nick msg = some (packBytes c nick msg) ∧
    unpack_message (packBytes c nick msg) = some (c, nick, msg) :=
  ⟨pack_eq_some c nick msg (by omega) hm hl, unpack_packBytes c nick msg hc hl⟩

/-- Witness for C1 at command 0, senderId "1", payload "hi". -/
theorem c1_roundtrip_witness :
    pack_message 0 [49] [104, 105] = some (packBytes 0 [49] [104, 105]) ∧
    unpack_message (packBytes 0 [49] [104, 105]) = some (0, [49], [104, 105]) :=
  c1_roundtrip 0 [49] [104, 105] (by decide) (by decide) (by decide)

/-! ## Claim C5 -/

/-- C5 counterexample: senderId "" and a payload of 65536 spaces followed by
"a" have combined length 65537 > 65535, where the claim as stated demands a
`FramingError`; but `pack_message` strips the payload to "a" first and
happily produces a (well-formed) frame. -/
theorem c5_counterexample :
    65535 < (([] : List Nat)).length + (List.replicate 65536 32 ++ [97]).length ∧
    pack_message 0 [] (List.replicate 65536 32 ++ [97]) = some [0, 1, 0, 0, 0, 97] := by
  constructor
  · rw [List.length_append, List.length_replicate]
    omega
  · unfold pack_message
    rw [strip_spaces97]
    rw [if_pos (by decide)]
    decide

/-- C5 (amended): `pack_message` fails (with `struct.error`, the spec's
FramingError) whenever the senderId length plus the **stripped** payload
length exceeds 65535; since the payload is stripped before the length fields
are built, the produced length fields never wrap or truncate, but a payload
whose raw length exceeds the bound can still be framed after stripping. -/
theorem c5_oversize (c : Nat) (nick msg : List Nat)
    (h : 65535 < nick.length + (strip msg).length) :
    pack_message c nick msg = none := by
  simp only [pack_message]
  rw [if_neg]
  intro hcon
  omega

/-- Witness for C5: an all-"a" payload of length 65536 with empty senderId. -/
theorem c5_oversize_witness :
    65535 < (([] : List Nat)).length + (strip (List.replicate 65536 97)).length ∧
    pack_message 0 [] (List.replicate 65536 97) = none := by
  have hs : strip (List.replicate 65536 97) = List.replicate 65536 97 :=
    strip_replicate 65536 97 (by decide)
  have hlen : 65535 < (([] : List Nat)).length
      + (strip (List.replicate 65536 97)).length := by
    rw [hs, List.length_replicate]
    omega
  exact ⟨hlen, c5_oversize 0 [] _ hlen⟩

/-! ## Claim C10 -/

/-- C10: for every command, senderId and payload, `pack_message` of the
payload equals `pack_message` of the stripped payload — the encoder
normalizes surrounding whitespace away before framing, so the encoded
`totalLen` always reflects the stripped length. -/
theorem c10_pack_strips (c : Nat) (nick msg : List Nat) :
    pack_message c nick msg = pack_message c nick (strip msg) := by
  simp only [pack_message, strip_strip]

/-! ## Claim C9 -/

/-- C9 counterexample: a link with a live writer that hits its read timeout
is NOT transitioned to any closed state: `process_node` swallows
`asyncio.TimeoutError` with `pass` (client.py lines 165-166), the link keeps
its writer, and the outer `receive_messages` loop resumes reading the very
same link. -/
theorem c9_counterexample :
    handleTimeout ⟨[97], 1, true⟩ = ⟨[97], 1, true⟩ ∧
    (handleTimeout ⟨[97], 1, true⟩).writer ≠ false := by
  refine ⟨rfl, by decide⟩

/-- C9 (amended): a read timeout on a neighbor link leaves the link exactly
as it was — no CLOSED transition exists in the code, the timeout is swallowed
and the read loop restarted — while `send_message` towards an absent writer
is a silent no-op that writes nothing and cannot raise. -/
theorem c9_timeout_behaviour (link : Conn) (data : List Nat) :
    handleTimeout link = link ∧ send_message false data = [] :=
  ⟨rfl, rfl⟩

/-! ## Claim C3 -/

lemma contains_false_of_not_mem (l : List Nat) (a : Nat) (h : a ∉ l) :
    l.contains a = false := by
  cases hc : l.contains a with
  | false => rfl
  | true => exact absurd (List.elem_iff.mp hc) h

lemma recv_fold_eq (nk : List Nat) (l : List Nat) (hnd : l.Nodup) :
    l.foldl recvStep ⟨[], [], nk⟩
      = ⟨l.drop (l.length - 64), l.drop (l.length - 64), nk⟩ := by
  induction l using List.reverseRecOn with
  | nil => rfl
  | append_singleton t a ih =>
    have hnd2 : t.Nodup := (List.sublist_append_left t [a]).nodup hnd
    have ha : a ∉ t := by
      rw [List.nodup_append] at hnd
      intro hm
      exact (hnd.2.2 hm) (List.mem_singleton.mpr rfl)
    rw [List.foldl_concat, ih hnd2]
    have hcontains : (t.drop (t.length - 64)).contains a = false :=
      contains_false_of_not_mem _ _ (fun hm => ha (List.mem_of_mem_drop hm))
    unfold recvStep
    rw [hcontains]
    simp only [Bool.false_eq_true, if_false]
    have hlen1 : (t ++ [a]).length - 64 = t.length + 1 - 64 := by
      rw [List.length_append, List.length_singleton]
    rcases Nat.lt_or_ge t.length 64 with hlt | hge
    · have h0 : t.length - 64 = 0 := by omega
      have h1 : t.length + 1 - 64 = 0 := by omega
      rw [h0, List.drop_zero, hlen1, h1, List.drop_zero]
      have hlt2 : ¬ 64 ≤ t.length := by omega
      simp [record, evict, setAdd, hlt2, ha]
    · have hDlen : (t.drop (t.length - 64)).length = 64 := by
        rw [List.length_drop]; omega
      cases hD : t.drop (t.length - 64) with
      | nil => rw [hD] at hDlen; simp at hDlen
      | cons d dt =>
        have hdt : dt = t.drop (t.length + 1 - 64) := by
          have htl : (t.drop (t.length - 64)).tail = t.drop (t.length - 64 + 1) :=
            List.tail_drop t (t.length - 64)
          rw [hD] at htl
          simp only [List.tail_cons] at htl
          rw [htl]
          congr 1
          omega
        have hdtmem : a ∉ dt := by
          intro hm
          apply ha
          apply List.mem_of_mem_drop
          rw [hD]
          exact List.mem_cons_of_mem d hm
        have hlen2 : (d :: dt).length = 64 := by rw [← hD]; exact hDlen
        rw [hlen1]
        rw [List.drop_append_of_le_length (by omega)]
        rw [← hdt]
        have hge2 : 64 ≤ (d :: dt).length := by omega
        have hge3 : 63 ≤ dt.length := by
          simp only [List.length_cons] at hlen2
          omega
        simp [record, evict, setAdd, hge2, hge3, hdtmem]

/-- C3: starting with an empty dedup history, after 65 distinct fingerprints
are recorded in order through the receive path, the 1st is no longer
recognised (its dedup lookup fails, so a re-delivery is processed again),
while each of the most recent 64 is still recognised as a duplicate (its
lookup succeeds and the receive step leaves the state unchanged). -/
theorem c3_history_bound (fps : List Nat) (h0 : Nat) (hnd : fps.Nodup)
    (hlen : fps.length = 65) (hhead : fps.head? = some h0) :
    ((fps.foldl recvStep ⟨[], [], []⟩).passed.contains h0 = false) ∧
    (∀ x ∈ fps.tail, (fps.foldl recvStep ⟨[], [], []⟩).passed.contains x = true) ∧
    (∀ x ∈ fps.tail, recvStep (fps.foldl recvStep ⟨[], [], []⟩) x
        = fps.foldl recvStep ⟨[], [], []⟩) := by
  have hfold := recv_fold_eq [] fps hnd
  rw [hlen] at hfold
  have h65 : (65 : Nat) - 64 = 1 := rfl
  rw [h65, List.drop_one] at hfold
  cases fps with
  | nil => simp at hhead
  | cons b t =>
    have hb : b = h0 := by simpa using hhead
    subst hb
    simp only [List.tail_cons] at hfold
    have hnmem : b ∉ t := (List.nodup_cons.mp hnd).1
    refine ⟨?_, ?_, ?_⟩
    · rw [hfold]
      exact contains_false_of_not_mem t b hnmem
    · intro x hx
      simp only [List.tail_cons] at hx
      rw [hfold]
      exact List.elem_iff.mpr hx
    · intro x hx
      simp only [List.tail_cons] at hx
      have hcx : t.contains x = true := List.elem_iff.mpr hx
      rw [hfold]
      unfold recvStep
      split
      next => rfl
      next hcond => exact absurd hcx hcond

/-- Witness for C3 with the fingerprints 0..64: fingerprint 0 is forgotten,
fingerprint 64 is still deduplicated. -/
theorem c3_history_bound_witness :
    ((List.range 65).foldl recvStep ⟨[], [], []⟩).passed.contains 0 = false ∧
    ((List.range 65).foldl recvStep ⟨[], [], []⟩).passed.contains 64 = true := by
  have h := c3_history_bound (List.range 65) 0 (List.nodup_range 65)
    (List.length_range 65) (by decide)
  exact ⟨h.1, h.2.1 64 (by decide)⟩

/-! ## Claim C4 -/

set_option maxRecDepth 40000 in
/-- C4 counterexample: the local-send path records without a membership
check.  Sending the same chat message twice (`send 0`, `send 0`) puts the
fingerprint 0 twice into the FIFO but only once into the set; 62 fresh
received fingerprints fill the FIFO to its 64 bound, and the next fresh one
evicts the first copy of 0, removing 0 from the set while the second copy is
still queued: the set no longer contains exactly the FIFO's fingerprints. -/
theorem c4_counterexample :
    ((([DedupOp.send 0, DedupOp.send 0] ++ (List.range' 1 62).map DedupOp.recv
        ++ [DedupOp.recv 63]).foldl applyOp ⟨[], [], []⟩).history.contains 0
      = true) ∧
    ((([DedupOp.send 0, DedupOp.send 0] ++ (List.range' 1 62).map DedupOp.recv
        ++ [DedupOp.recv 63]).foldl applyOp ⟨[], [], []⟩).passed.contains 0
      = false) := by
  refine ⟨by decide, by decide⟩

lemma not_mem_of_contains_false (l : List Nat) (a : Nat)
    (h : l.contains a = false) : a ∉ l := by
  intro hm
  have h2 : l.contains a = true := List.elem_iff.mpr hm
  rw [h2] at h
  exact Bool.noConfusion h

lemma record_preserves (st : NodeSt) (h : Nat)
    (hfresh : st.passed.contains h = false) (hinv : st.passed = st.history) :
    (record st h).passed = (record st h).history := by
  rcases st with ⟨p, hist, nk⟩
  simp only at hinv hfresh
  subst hinv
  have hmem : h ∉ p := not_mem_of_contains_false p h hfresh
  by_cases hl : 64 ≤ p.length
  · cases p with
    | nil => simp at hl
    | cons d t =>
      have hmem2 : h ∉ t := fun hm => hmem (List.mem_cons_of_mem d hm)
      have hl2 : 63 ≤ t.length := by
        simp only [List.length_cons] at hl
        omega
      simp [record, evict, setAdd, hl, hl2, hmem2]
  · simp [record, evict, setAdd, hl, hmem]

lemma safe_fold_preserves (ops : List DedupOp) (st : NodeSt)
    (hsafe : safeOps st ops = true) (hinv : st.passed = st.history) :
    (ops.foldl applyOp st).passed = (ops.foldl applyOp st).history := by
  induction ops generalizing st with
  | nil => simpa using hinv
  | cons op rest ih =>
    unfold safeOps at hsafe
    rw [Bool.and_eq_true] at hsafe
    rw [List.foldl_cons]
    apply ih _ hsafe.2
    cases op with
    | recv h =>
      have happ : applyOp st (DedupOp.recv h) = recvStep st h := rfl
      rw [happ]
      unfold recvStep
      split
      next => exact hinv
      next hcond =>
        refine record_preserves st h ?_ hinv
        cases hcc : st.passed.contains h with
        | false => rfl
        | true => exact absurd hcc hcond
    | send h =>
      have happ : applyOp st (DedupOp.send h) = record st h := rfl
      rw [happ]
      refine record_preserves st h ?_ hinv
      have hs : st.passed.contains h = false := by simpa using hsafe.1
      exact hs

/-- C4 (amended): provided that the local-send path never records a
fingerprint that is still present in `passed_messages` (received frames are
guarded by the line-200 membership check; locally sent ones are not, which
is exactly what the counterexample exploits), every sequence of received and
locally sent recordings keeps the membership set identical to the FIFO
content, so the set contains exactly the fingerprints currently held in the
queue. -/
theorem c4_invariant (ops : List DedupOp) (st0 : NodeSt)
    (hsafe : safeOps st0 ops = true) (hinv : st0.passed = st0.history) :
    (ops.foldl applyOp st0).passed = (ops.foldl applyOp st0).history :=
  safe_fold_preserves ops st0 hsafe hinv

/-- Witness for C4: one local send and one received frame from the empty
state. -/
theorem c4_invariant_witness :
    ([DedupOp.send 5, DedupOp.recv 7].foldl applyOp ⟨[], [], []⟩).passed
      = ([DedupOp.send 5, DedupOp.recv 7].foldl applyOp ⟨[], [], []⟩).history :=
  c4_invariant [DedupOp.send 5, DedupOp.recv 7] ⟨[], [], []⟩ (by decide) rfl

/-! ## Claim C6 -/

/-- Unfolding equation for `processFrames` on one more frame. -/
lemma processFrames_cons (ctx : Ctx) (st : NodeSt) (f : List Nat)
    (fs : List (List Nat)) :
    processFrames ctx st (f :: fs)
      = ((processFrames ctx (step ctx st f).1 fs).1,
         (step ctx st f).2 :: (processFrames ctx (step ctx st f).1 fs).2) := rfl

/-- C6 counterexample: the frame [7, 0, 0, 0, 0] has command byte 7, not one
of the five ids, yet no ProtocolError occurs: its `totalLen` field is zero,
so `process_stream` breaks at `if not body_data` (client.py lines 196-197)
before `unpack_message` ever runs, skipping the frame silently — no error,
no dispatch, no record, no forward. -/
theorem c6_counterexample :
    step ⟨true, true, true, true, ⟨[97], 1, true⟩, none, fun _ => 0⟩
        ⟨[], [], []⟩ [7, 0, 0, 0, 0] = (⟨[], [], []⟩, skipOutcome) ∧
    skipOutcome.errored = false ∧
    skipOutcome.handlerRun = false ∧
    skipOutcome.rawForwards = 0 := by
  refine ⟨by decide, by decide, by decide, by decide⟩

/-- C6 (amended): an inbound frame with a nonempty body (`totalLen` field
nonzero — an empty-body frame is instead skipped silently before decoding)
whose command byte is not one of the five fixed ids 0..4 fails to decode —
`unpack_message` takes the unknown-command `ValueError` path (the spec's
ProtocolError) and returns `None` — the frame is dropped without being
dispatched, forwarded or recorded, and the relay loop (the `process_node`
restart driven by `receive_messages`) carries on processing the subsequent
frames exactly as if the bad frame had never arrived. -/
theorem c6_unknown_command (ctx : Ctx) (st : NodeSt) (c b1 b2 b3 b4 : Nat)
    (body : List Nat) (frames : List (List Nat)) (hc : 5 ≤ c)
    (hdl : b1 + 256 * b2 ≠ 0)
    (hfresh : st.passed.contains (crc32 (c :: b1 :: b2 :: b3 :: b4 :: body))
      = false) :
    unpack_message (c :: b1 :: b2 :: b3 :: b4 :: body) = none ∧
    step ctx st (c :: b1 :: b2 :: b3 :: b4 :: body) = (st, errOutcome) ∧
    processFrames ctx st ((c :: b1 :: b2 :: b3 :: b4 :: body) :: frames)
      = ((processFrames ctx st frames).1,
         errOutcome :: (processFrames ctx st frames).2) := by
  have hun : unpack_message (c :: b1 :: b2 :: b3 :: b4 :: body) = none := by
    simp only [unpack_message]
    rw [if_neg (by omega)]
  have hskip : ¬ (bodyLen (c :: b1 :: b2 :: b3 :: b4 :: body) = some 0) := by
    simp only [bodyLen, Option.some.injEq]
    exact hdl
  have hstep : step ctx st (c :: b1 :: b2 :: b3 :: b4 :: body)
      = (st, errOutcome) := by
    simp only [step]
    rw [if_neg hskip]
    simp only [hfresh, Bool.false_eq_true, if_false, hun]
  refine ⟨hun, hstep, ?_⟩
  rw [processFrames_cons, hstep]

/-- Witness for C6 at command byte 7 with a one-byte body on a node with
empty history. -/
theorem c6_unknown_command_witness :
    unpack_message [7, 1, 0, 0, 0, 0] = none ∧
    step ⟨true, true, true, true, ⟨[97], 1, true⟩, none, fun _ => 0⟩ ⟨[], [], []⟩
        [7, 1, 0, 0, 0, 0] = (⟨[], [], []⟩, errOutcome) ∧
    processFrames ⟨true, true, true, true, ⟨[97], 1, true⟩, none, fun _ => 0⟩
        ⟨[], [], []⟩ ([7, 1, 0, 0, 0, 0] :: [])
      = ((processFrames ⟨true, true, true, true, ⟨[97], 1, true⟩, none,
            fun _ => 0⟩ ⟨[], [], []⟩ []).1,
         errOutcome :: (processFrames ⟨true, true, true, true, ⟨[97], 1, true⟩,
            none, fun _ => 0⟩ ⟨[], [], []⟩ []).2) :=
  c6_unknown_command _ _ 7 1 0 0 0 [0] [] (by omega) (by omega) rfl

/-! ## Claim C2 -/

lemma setAdd_contains_self (s : List Nat) (h : Nat) :
    (setAdd s h).contains h = true := by
  unfold setAdd
  split
  next hc => exact hc
  next hc => exact List.elem_iff.mpr (by simp)

lemma record_contains_self (st : NodeSt) (h : Nat) :
    (record st h).passed.contains h = true := by
  simp only [record]
  exact setAdd_contains_self _ h

lemma record_mem_self (st : NodeSt) (h : Nat) : h ∈ (record st h).passed :=
  List.elem_iff.mp (record_contains_self st h)

/-- Once the dedup check has seen the fingerprint, the same raw bytes (of a
frame with a nonempty body) are dropped silently: no unpack, no dispatch,
no forward, state unchanged (client.py lines 199-201). -/
lemma step_dup (ctx : Ctx) (st : NodeSt) (raw : List Nat)
    (hbody : ¬ (bodyLen raw = some 0))
    (hdup : st.passed.contains (crc32 raw) = true) :
    step ctx st raw = (st, dropOutcome) := by
  simp only [step]
  rw [if_neg hbody]
  simp only [hdup, if_pos]

lemma step_fresh_spec (ctx : Ctx) (st : NodeSt) (raw : List Nat)
    (hbody : ¬ (bodyLen raw = some 0))
    (hfresh : st.passed.contains (crc32 raw) = false)
    (herr : (step ctx st raw).2.errored = false) :
    (step ctx st raw).1.passed.contains (crc32 raw) = true ∧
    ((step ctx st raw).2.handlerRun || (step ctx st raw).2.inlineSplice) = true ∧
    (step ctx st raw).2.dropped = false ∧
    (step ctx st raw).2.rawForwards ≤ 1 := by
  have hfm : crc32 raw ∉ st.passed :=
    not_mem_of_contains_false _ _ hfresh
  cases hu : unpack_message raw with
  | none =>
    simp [step, hbody, hfresh, hfm, hu, errOutcome] at herr
  | some v =>
    obtain ⟨cmd, nick, msg⟩ := v
    by_cases hcmd : cmd = 4
    · subst hcmd
      cases hm : msg.head? with
      | none =>
        simp [step, hbody, hfresh, hfm, hu, hm, errOutcome] at herr
      | some c0 =>
        by_cases hc0 : c0 = 49
        · subst hc0
          cases hnn : ctx.newNode with
          | none =>
            simp [step, hbody, hfresh, hfm, hu, hm, hnn, errOutcome] at herr
          | some nn =>
            cases hpk : pack_message 3 (record st (crc32 raw)).nickname
                (natDigits (pyMod (ctx.pyHash (connStr nn)))) with
            | none =>
              simp [step, hbody, hfresh, hfm, hu, hm, hnn, hpk] at herr
            | some giveId =>
              cases hw : nn.writer with
              | true =>
                simp [step, hbody, hfresh, hfm, hu, hm, hnn, hpk, hw,
                  record_mem_self]
              | false =>
                simp [step, hbody, hfresh, hfm, hu, hm, hnn, hpk, hw,
                  record_mem_self]
        · cases hd : dispatch ctx st 4 nick msg with
          | none =>
            simp [step, hbody, hfresh, hfm, hu, hm, hc0, hd, errOutcome] at herr
          | some p =>
            obtain ⟨st2, sends⟩ := p
            by_cases hc48 : c0 = 48
            · subst hc48
              cases hw : ctx.leftWriter with
              | true =>
                simp [step, hbody, hfresh, hfm, hu, hm, hc0, hd, hw, record_mem_self]
              | false =>
                simp [step, hbody, hfresh, hfm, hu, hm, hc0, hd, hw, record_mem_self]
            · simp [step, hbody, hfresh, hfm, hu, hm, hc0, hc48, hd, record_mem_self]
    · cases hd : dispatch ctx st cmd nick msg with
      | none =>
        simp [step, hbody, hfresh, hfm, hu, hcmd, hd, errOutcome] at herr
      | some p =>
        obtain ⟨st2, sends⟩ := p
        cases hw : ctx.oppWriter with
        | true =>
          simp [step, hbody, hfresh, hfm, hu, hcmd, hd, hw, record_mem_self]
        | false =>
          simp [step, hbody, hfresh, hfm, hu, hcmd, hd, hw, record_mem_self]

/-- C2 (amended): for every frame with a nonempty body (an empty-body frame
is skipped silently before any dedup handling by the `if not body_data`
check) whose first delivery is processed without an exception, one node's
receive path processes it exactly once — by a command-handler dispatch, or
by the inline new-member splice handling for NEW_CONNECTION frames tagged
"1", which runs WITHOUT any handler call — and relays the raw bytes at most
once; the second delivery of the same raw bytes, whose CRC-32 fingerprint
is then in the dedup history, is dropped silently: no dispatch, no forward,
state unchanged. -/
theorem c2_dedup_idempotent (ctx : Ctx) (st : NodeSt) (raw : List Nat)
    (hbody : ¬ (bodyLen raw = some 0))
    (hfresh : st.passed.contains (crc32 raw) = false)
    (herr : (step ctx st raw).2.errored = false) :
    ((step ctx st raw).2.handlerRun || (step ctx st raw).2.inlineSplice) = true ∧
    (step ctx st raw).2.dropped = false ∧
    (step ctx st raw).2.rawForwards ≤ 1 ∧
    step ctx (step ctx st raw).1 raw = ((step ctx st raw).1, dropOutcome) := by
  obtain ⟨hrec, hproc, hdrop, hfw⟩ := step_fresh_spec ctx st raw hbody hfresh herr
  exact ⟨hproc, hdrop, hfw, step_dup ctx _ raw hbody hrec⟩

set_option maxRecDepth 40000 in
/-- Witness for C2: a PRINT_MESSAGE frame from sender "1" with payload "hi"
delivered twice to a node with both writers live. -/
theorem c2_dedup_idempotent_witness :
    ((step ⟨true, true, true, true, ⟨[97], 1, true⟩, some ⟨[99], 3, true⟩,
        fun _ => 0⟩ ⟨[], [], [49]⟩ [0, 3, 0, 1, 0, 49, 104, 105]).2.handlerRun ||
      (step ⟨true, true, true, true, ⟨[97], 1, true⟩, some ⟨[99], 3, true⟩,
        fun _ => 0⟩ ⟨[], [], [49]⟩ [0, 3, 0, 1, 0, 49, 104, 105]).2.inlineSplice)
      = true ∧
    (step ⟨true, true, true, true, ⟨[97], 1, true⟩, some ⟨[99], 3, true⟩,
        fun _ => 0⟩ ⟨[], [], [49]⟩ [0, 3, 0, 1, 0, 49, 104, 105]).2.dropped
      = false ∧
    (step ⟨true, true, true, true, ⟨[97], 1, true⟩, some ⟨[99], 3, true⟩,
        fun _ => 0⟩ ⟨[], [], [49]⟩ [0, 3, 0, 1, 0, 49, 104, 105]).2.rawForwards
      ≤ 1 ∧
    step ⟨true, true, true, true, ⟨[97], 1, true⟩, some ⟨[99], 3, true⟩,
        fun _ => 0⟩
      (step ⟨true, true, true, true, ⟨[97], 1, true⟩, some ⟨[99], 3, true⟩,
        fun _ => 0⟩ ⟨[], [], [49]⟩ [0, 3, 0, 1, 0, 49, 104, 105]).1
      [0, 3, 0, 1, 0, 49, 104, 105]
      = ((step ⟨true, true, true, true, ⟨[97], 1, true⟩, some ⟨[99], 3, true⟩,
          fun _ => 0⟩ ⟨[], [], [49]⟩ [0, 3, 0, 1, 0, 49, 104, 105]).1,
         dropOutcome) :=
  c2_dedup_idempotent _ _ _ (by decide) (by decide) (by decide)

set_option maxRecDepth 40000 in
/-- C2 counterexample: a NEW_CONNECTION frame tagged "1" (here from sender
"1" with payload "1c:3") is processed by the inline splice branch of
`process_stream` with NO dispatch to a command handler; delivering the same
raw bytes twice therefore yields zero handler dispatches, not exactly one as
the claim states (the second delivery is dropped as a duplicate, and the
frame is still relayed once, to `new_node`). -/
theorem c2_counterexample :
    ((step ⟨true, true, true, true, ⟨[97], 1, true⟩, some ⟨[99], 3, true⟩,
        fun _ => 0⟩ ⟨[], [], [49]⟩
        [4, 5, 0, 1, 0, 49, 49, 99, 58, 51]).2.handlerRun = false) ∧
    ((step ⟨true, true, true, true, ⟨[97], 1, true⟩, some ⟨[99], 3, true⟩,
        fun _ => 0⟩ ⟨[], [], [49]⟩
        [4, 5, 0, 1, 0, 49, 49, 99, 58, 51]).2.inlineSplice = true) ∧
    ((step ⟨true, true, true, true, ⟨[97], 1, true⟩, some ⟨[99], 3, true⟩,
        fun _ => 0⟩ ⟨[], [], [49]⟩
        [4, 5, 0, 1, 0, 49, 49, 99, 58, 51]).2.errored = false) ∧
    ((step ⟨true, true, true, true, ⟨[97], 1, true⟩, some ⟨[99], 3, true⟩,
        fun _ => 0⟩
      (step ⟨true, true, true, true, ⟨[97], 1, true⟩, some ⟨[99], 3, true⟩,
        fun _ => 0⟩ ⟨[], [], [49]⟩
        [4, 5, 0, 1, 0, 49, 49, 99, 58, 51]).1
      [4, 5, 0, 1, 0, 49, 49, 99, 58, 51]).2.handlerRun = false) ∧
    ((step ⟨true, true, true, true, ⟨[97], 1, true⟩, some ⟨[99], 3, true⟩,
        fun _ => 0⟩
      (step ⟨true, true, true, true, ⟨[97], 1, true⟩, some ⟨[99], 3, true⟩,
        fun _ => 0⟩ ⟨[], [], [49]⟩
        [4, 5, 0, 1, 0, 49, 49, 99, 58, 51]).1
      [4, 5, 0, 1, 0, 49, 49, 99, 58, 51]).2.dropped = true) := by
  refine ⟨by decide, by decide, by decide, by decide, by decide⟩

/-! ## Claim C8 -/

/-- C8: when a node with both neighbor links live executes the local
`!disconnect` command, the frames it writes are, in order: the departure
notice to the left and the right writer, then a NEW_CONNECTION frame to the
LEFT neighbor whose payload is "2r" (bytes 50, 114) followed by the right
neighbor's host:port string, then a NEW_CONNECTION frame to the RIGHT
neighbor whose payload is "2l" (bytes 50, 108) followed by the left
neighbor's host:port string; afterwards both links are closed and the
process terminates (the `true` flag).  The two repoint frames decode to
command 4 with exactly those payloads. -/
theorem c8_disconnect_repoint (nickname : List Nat) (leftNode r : Conn)
    (hlw : leftNode.writer = true) (hrw : r.writer = true)
    (hsn : strip nickname = nickname)
    (hsr : strip (50 :: 114 :: connStr r) = 50 :: 114 :: connStr r)
    (hsl : strip (50 :: 108 :: connStr leftNode) = 50 :: 108 :: connStr leftNode)
    (hl1 : nickname.length + nickname.length ≤ 65535)
    (hl2 : nickname.length + (50 :: 114 :: connStr r).length ≤ 65535)
    (hl3 : nickname.length + (50 :: 108 :: connStr leftNode).length ≤ 65535) :
    disconnectStep nickname leftNode (some r)
      = some ([(DTarget.dLeft, packBytes 1 nickname nickname),
               (DTarget.dRight, packBytes 1 nickname nickname),
               (DTarget.dLeft, packBytes 4 nickname (50 :: 114 :: connStr r)),
               (DTarget.dRight,
                packBytes 4 nickname (50 :: 108 :: connStr leftNode))],
              true) ∧
    unpack_message (packBytes 4 nickname (50 :: 114 :: connStr r))
      = some (4, nickname, 50 :: 114 :: connStr r) ∧
    unpack_message (packBytes 4 nickname (50 :: 108 :: connStr leftNode))
      = some (4, nickname, 50 :: 108 :: connStr leftNode) := by
  refine ⟨?_, unpack_packBytes 4 nickname _ (by omega) hl2,
          unpack_packBytes 4 nickname _ (by omega) hl3⟩
  unfold disconnectStep
  simp only [strOfNode]
  rw [pack_eq_some 1 nickname nickname (by omega) hsn hl1,
      pack_eq_some 4 nickname (50 :: 114 :: connStr r) (by omega) hsr hl2,
      pack_eq_some 4 nickname (50 :: 108 :: connStr leftNode) (by omega) hsl hl3]
  simp [hlw, hrw]

/-- Witness for C8: nickname "1", left neighbor a:1, right neighbor b:2,
both writers live. -/
theorem c8_disconnect_repoint_witness :
    disconnectStep [49] ⟨[97], 1, true⟩ (some ⟨[98], 2, true⟩)
      = some ([(DTarget.dLeft, packBytes 1 [49] [49]),
               (DTarget.dRight, packBytes 1 [49] [49]),
               (DTarget.dLeft,
                packBytes 4 [49] (50 :: 114 :: connStr ⟨[98], 2, true⟩)),
               (DTarget.dRight,
                packBytes 4 [49] (50 :: 108 :: connStr ⟨[97], 1, true⟩))],
              true) ∧
    unpack_message (packBytes 4 [49] (50 :: 114 :: connStr ⟨[98], 2, true⟩))
      = some (4, [49], 50 :: 114 :: connStr ⟨[98], 2, true⟩) ∧
    unpack_message (packBytes 4 [49] (50 :: 108 :: connStr ⟨[97], 1, true⟩))
      = some (4, [49], 50 :: 108 :: connStr ⟨[97], 1, true⟩) :=
  c8_disconnect_repoint [49] ⟨[97], 1, true⟩ ⟨[98], 2, true⟩ rfl rfl
    (by decide) (by decide) (by decide) (by decide) (by decide) (by decide)

/-! ## Claim C7 -/

lemma natDigitsAux_digits (fuel : Nat) :
    ∀ n, ∀ x ∈ natDigitsAux fuel n, 48 ≤ x ∧ x ≤ 57 := by
  induction fuel with
  | zero => intro n x hx; simp [natDigitsAux] at hx
  | succ f ih =>
    intro n x hx
    unfold natDigitsAux at hx
    by_cases h : n < 10
    · rw [if_pos h] at hx
      simp only [List.mem_singleton] at hx
      omega
    · rw [if_neg h] at hx
      rw [List.mem_append] at hx
      cases hx with
      | inl h1 => exact ih (n / 10) x h1
      | inr h2 =>
        simp only [List.mem_singleton] at h2
        omega

lemma natDigits_digits (n : Nat) : ∀ x ∈ natDigits n, 48 ≤ x ∧ x ≤ 57 :=
  natDigitsAux_digits (n + 1) n

lemma isSpace_of_digit (x : Nat) (h1 : 48 ≤ x) (h2 : x ≤ 57) :
    isSpace x = false := by
  unfold isSpace
  simp only [Bool.or_eq_false_iff, beq_eq_false_iff_ne]
  omega

lemma strip_eq_self_of_all (l : List Nat) (h : ∀ x ∈ l, isSpace x = false) :
    strip l = l := by
  apply strip_eq_self_of_ends
  · intro x hx
    apply h
    cases hl : l with
    | nil => rw [hl] at hx; exact absurd hx (by simp)
    | cons a t =>
      rw [hl] at hx
      simp only [List.head?_cons, Option.some.injEq] at hx
      subst hx
      exact List.mem_cons_self a t
  · intro x hx
    apply h
    rw [← List.head?_reverse] at hx
    have hmemrev : x ∈ l.reverse := by
      cases hl : l.reverse with
      | nil => rw [hl] at hx; exact absurd hx (by simp)
      | cons a t =>
        rw [hl] at hx
        simp only [List.head?_cons, Option.some.injEq] at hx
        subst hx
        exact List.mem_cons_self a t
    exact List.mem_reverse.mp hmemrev

lemma strip_natDigits (n : Nat) : strip (natDigits n) = natDigits n :=
  strip_eq_self_of_all _ (fun x hx =>
    isSpace_of_digit x (natDigits_digits n x hx).1 (natDigits_digits n x hx).2)

lemma evict_nickname (st : NodeSt) : (evict st).nickname = st.nickname := by
  unfold evict
  split
  next => rfl
  next => rfl

lemma record_nickname (st : NodeSt) (h : Nat) :
    (record st h).nickname = st.nickname := by
  simp only [record]
  split
  next => exact evict_nickname st
  next => rfl

/-- A frame that decodes at all but announces an empty body decodes to an
empty payload: decoding cannot produce a payload byte the body does not
carry. -/
lemma unpack_empty_body (raw : List Nat) (cmd : Nat) (nick msg : List Nat)
    (hu : unpack_message raw = some (cmd, nick, msg))
    (hb : bodyLen raw = some 0) : msg = [] := by
  cases raw with
  | nil => exact absurd hb (by simp [bodyLen])
  | cons x1 t1 =>
    cases t1 with
    | nil => exact absurd hb (by simp [bodyLen])
    | cons x2 t2 =>
      cases t2 with
      | nil => exact absurd hb (by simp [bodyLen])
      | cons x3 t3 =>
        have hx : x2 + 256 * x3 = 0 := by simpa [bodyLen] using hb
        cases t3 with
        | nil => exact absurd hu (by simp [unpack_message])
        | cons x4 t4 =>
          cases t4 with
          | nil => exact absurd hu (by simp [unpack_message])
          | cons x5 t5 =>
            simp only [unpack_message, hx] at hu
            split at hu
            · split at hu
              · exact absurd hu (by simp)
              · split at hu
                · exact absurd hu (by simp)
                · simp only [List.take_zero, List.take_nil, List.drop_nil,
                    Option.some.injEq, Prod.mk.injEq] at hu
                  exact hu.2.2.symm
            · exact absurd hu (by simp)

/-- A decoded frame whose payload has a first byte necessarily had a
nonempty body, so the `if not body_data` skip did not apply to it. -/
lemma bodyLen_ne_zero_of_head (raw : List Nat) (cmd : Nat)
    (nick msg : List Nat) (c0 : Nat)
    (hu : unpack_message raw = some (cmd, nick, msg))
    (hm : msg.head? = some c0) : ¬ (bodyLen raw = some 0) := by
  intro hb
  rw [unpack_empty_body raw cmd nick msg hu hb] at hm
  simp at hm

/-- C7: every id the protocol assigns equals
`hash(str(peerAddress)) % 10**9` over the relevant peer's "host:port"
string: (a) the SOLO bootstrap id (client.py line 99) hashes the node's own
address; (b) the id a solo entry point assigns to an accepted joining
candidate in `handle_connection` (line 363) hashes the candidate's address
and travels as the decoded payload of the second frame sent (the GIVE_ID
frame); (c) the id the splice-terminating peer assigns in the NEW_CONNECTION
"1" branch of `process_stream` (line 210) hashes `str(self.new_node)` — the
candidate's address — and likewise travels in the GIVE_ID frame it sends. -/
theorem c7_id_assignment (hsh : List Nat → Int) (me rn peer nn : Conn)
    (nickname : List Nat) (awaited : List (List Nat)) (ctx : Ctx)
    (st : NodeSt) (raw : List Nat) (nick0 msg : List Nat)
    (hrn : connStr rn = connStr me)
    (hpw : peer.writer = true)
    (hs1 : strip (49 :: connStr me) = 49 :: connStr me)
    (hl1 : nickname.length + (49 :: connStr me).length ≤ 65535)
    (hl2 : nickname.length
        + (natDigits (pyMod (hsh (connStr peer)))).length ≤ 65535)
    (hctx : ctx.newNode = some nn)
    (hnw : nn.writer = true)
    (hu : unpack_message raw = some (4, nick0, msg))
    (hm : msg.head? = some 49)
    (hfresh : st.passed.contains (crc32 raw) = false)
    (hl3 : st.nickname.length
        + (natDigits (pyMod (ctx.pyHash (connStr nn)))).length ≤ 65535) :
    soloNickname hsh me = natDigits (pyMod (hsh (connStr me))) ∧
    ((handleConnection hsh me nickname (some rn) awaited peer).bind
        (fun res => (res.sent.get? 1).bind (fun y => unpack_message y.2)))
      = some (3, nickname, natDigits (pyMod (hsh (connStr peer)))) ∧
    (step ctx st raw).2.sent
      = [(Target.toNewNode,
          packBytes 3 st.nickname
            (natDigits (pyMod (ctx.pyHash (connStr nn)))))] ∧
    unpack_message (packBytes 3 st.nickname
        (natDigits (pyMod (ctx.pyHash (connStr nn)))))
      = some (3, st.nickname, natDigits (pyMod (ctx.pyHash (connStr nn)))) := by
  refine ⟨rfl, ?_, ?_, unpack_packBytes 3 st.nickname _ (by omega) hl3⟩
  · unfold handleConnection
    simp only [strOfNode]
    rw [hrn]
    rw [if_pos (beq_self_eq_true (connStr me))]
    rw [pack_eq_some 4 nickname (49 :: connStr me) (by omega) hs1 hl1]
    rw [pack_eq_some 3 nickname (natDigits (pyMod (hsh (connStr peer))))
      (by omega) (strip_natDigits _) hl2]
    simp [hpw, unpack_packBytes 3 nickname _ (by omega) hl2]
  · have hfm : crc32 raw ∉ st.passed := not_mem_of_contains_false _ _ hfresh
    have hbody : ¬ (bodyLen raw = some 0) :=
      bodyLen_ne_zero_of_head raw 4 nick0 msg 49 hu hm
    have hpk : pack_message 3 (record st (crc32 raw)).nickname
        (natDigits (pyMod (ctx.pyHash (connStr nn))))
        = some (packBytes 3 st.nickname
            (natDigits (pyMod (ctx.pyHash (connStr nn))))) := by
      rw [record_nickname]
      exact pack_eq_some 3 st.nickname _ (by omega) (strip_natDigits _) hl3
    simp [step, hbody, hfresh, hfm, hu, hm, hctx, hpk, hnw]

/-- Witness for C7: hash function constantly 7, solo node a:1 with a joining
candidate b:2, and a splice-terminating node with `new_node` c:3 processing
the NEW_CONNECTION "1" frame from sender "1" with payload "1c:3". -/
theorem c7_id_assignment_witness :
    soloNickname (fun _ => 7) ⟨[97], 1, true⟩
      = natDigits (pyMod ((fun _ => (7 : Int)) (connStr ⟨[97], 1, true⟩))) ∧
    ((handleConnection (fun _ => 7) ⟨[97], 1, true⟩ [49]
        (some ⟨[97], 1, true⟩) [] ⟨[98], 2, true⟩).bind
        (fun res => (res.sent.get? 1).bind (fun y => unpack_message y.2)))
      = some (3, [49],
          natDigits (pyMod ((fun _ => (7 : Int)) (connStr ⟨[98], 2, true⟩)))) ∧
    (step ⟨true, true, true, true, ⟨[97], 1, true⟩, some ⟨[99], 3, true⟩,
        fun _ => 7⟩ ⟨[], [], [49]⟩ [4, 5, 0, 1, 0, 49, 49, 99, 58, 51]).2.sent
      = [(Target.toNewNode,
          packBytes 3 (NodeSt.mk [] [] [49]).nickname
            (natDigits (pyMod ((⟨true, true, true, true, ⟨[97], 1, true⟩,
              some ⟨[99], 3, true⟩, fun _ => 7⟩ : Ctx).pyHash
              (connStr ⟨[99], 3, true⟩)))))] ∧
    unpack_message (packBytes 3 (NodeSt.mk [] [] [49]).nickname
        (natDigits (pyMod ((⟨true, true, true, true, ⟨[97], 1, true⟩,
          some ⟨[99], 3, true⟩, fun _ => 7⟩ : Ctx).pyHash
          (connStr ⟨[99], 3, true⟩)))))
      = some (3, (NodeSt.mk [] [] [49]).nickname,
          natDigits (pyMod ((⟨true, true, true, true, ⟨[97], 1, true⟩,
            some ⟨[99], 3, true⟩, fun _ => 7⟩ : Ctx).pyHash
            (connStr ⟨[99], 3, true⟩)))) :=
  c7_id_assignment (fun _ => 7) ⟨[97], 1, true⟩ ⟨[97], 1, true⟩ ⟨[98], 2, true⟩
    ⟨[99], 3, true⟩ [49] []
    ⟨true, true, true, true, ⟨[97], 1, true⟩, some ⟨[99], 3, true⟩, fun _ => 7⟩
    ⟨[], [], [49]⟩ [4, 5, 0, 1, 0, 49, 49, 99, 58, 51] [49] [49, 99, 58, 51]
    rfl rfl (by decide) (by decide) (by decide) rfl rfl (by decide) rfl rfl
    (by decide)

end DecMess
